import Mathlib

/-!
Verification of the ChaCha20-based DRNG backend (lrng_chacha20.c).

Shallow embedding conventions:

- u32 values are Nat, reduced modulo W = 2^32 where the C code can overflow
  (nonce increments) or where a wider value is assigned into a u32
  (entropy mixing).  XOR of two values below W stays below W, so plain
  XOR needs no extra reduction.
- The external primitive chacha20_block (declared in crypto/chacha.h, not
  part of this repository) is treated as an opaque deterministic function
  from the 16-word state to 16 output words, exactly as the specification
  describes it ("given a 512-bit state, produces 512 bits of pseudorandom
  output deterministically"); its internal handling of the counter word is
  part of the opaque dependency and not modelled.  All theorems quantify
  over this function.
- Byte views of word arrays (the key.u/key.b union, u8 casts of u32
  buffers) use the little-endian layout of the kernel targets this code
  is built for.
- The uninitialized stack buffer aligned_buf in the generate helper is an
  explicit parameter (junk), so that independence from its contents is
  expressible.
-/

/-- 2^32, the modulus of the u32 word arithmetic. -/
def W : Nat := 4294967296

/-- State according to RFC 7539 section 2.3 (struct chacha20_block):
four constant words, eight key words, one counter word, three nonce
words. -/
structure ChaCha20Block where
  constants : Fin 4 → Nat
  key : Fin 8 → Nat
  counter : Nat
  nonce : Fin 3 → Nat

/-- The opaque external block function chacha20_block: 16-word state in,
16 output words out (the 64 output bytes, read as little-endian words). -/
abbrev BlockFn := ChaCha20Block → Fin 16 → Nat

/-- Output word i of the block function, reduced to u32 range (the C
output has type u32[16] viewed through u8*). -/
def cbw (cb : BlockFn) (st : ChaCha20Block) (i : Fin 16) : Nat := cb st i % W

/-- Byte j (0..3) of a u32 word, little-endian. -/
def wordByte (w j : Nat) : Nat := (w >>> (8 * j)) &&& 255

/-- The 64 bytes of one block-function output, little-endian per word
(the u8* view the C code writes into the output buffer). -/
def blockBytes (w : Fin 16 → Nat) : List Nat :=
  List.ofFn (fun j : Fin 64 =>
    wordByte (w ⟨j.val / 4, by omega⟩) (j.val % 4))

/-- lrng_chacha20_update (lrng_chacha20.c lines 54-81).
If used_words > CHACHA_KEY_SIZE_WORDS (8), generate one fresh block into
tmp and XOR its first 8 words onto the key; otherwise XOR
buf[used_words..used_words+7] onto the key.  Then increment nonce[0]
mod 2^32; if it became 0 increment nonce[1]; if nonce[1] reads 0 after
that (whether or not it was just incremented) increment nonce[2].  The
counter field is not written. -/
def lrng_chacha20_update (cb : BlockFn) (st : ChaCha20Block)
    (buf : Fin 16 → Nat) (used_words : Nat) : ChaCha20Block :=
  let key2 : Fin 8 → Nat :=
    if h : 8 < used_words then
      fun i => st.key i ^^^ cbw cb st (Fin.castLE (by norm_num) i)
    else
      fun i => st.key i ^^^ (buf ⟨i.val + used_words, by
        have hi := i.isLt; omega⟩ % W)
  let n0 := (st.nonce 0 + 1) % W
  let n1 := if n0 = 0 then (st.nonce 1 + 1) % W else st.nonce 1
  let n2 := if n1 = 0 then (st.nonce 2 + 1) % W else st.nonce 2
  { st with key := key2, nonce := ![n0, n1, n2] }

/-- The 96-bit value of the little-endian 3-word nonce. -/
def nonceVal (n : Fin 3 → Nat) : Nat := n 0 + W * n 1 + W * W * n 2

/-- Formalisation of the wording of claim C2: the nonce is incremented
as a little-endian 96-bit counter with carry propagation, word 2 being
incremented only when word 1 wrapped to zero as a result of the carry
from word 0. -/
def nonceIncClaimed (n : Fin 3 → Nat) : Fin 3 → Nat :=
  let n0 := (n 0 + 1) % W
  let n1 := if n0 = 0 then (n 1 + 1) % W else n 1
  let n2 := if n0 = 0 ∧ n1 = 0 then (n 2 + 1) % W else n 2
  ![n0, n1, n2]

/-- Formalisation of the wording of claim C3 for the key part of the
update: when a carry buffer is available and its count of undisclosed
words exceeds the key-size word count, XOR the undisclosed suffix onto
the key; in every other case XOR the first half of a fresh block onto
the key. -/
def keyUpdateClaimed (cb : BlockFn) (st : ChaCha20Block)
    (buf : Option (Fin 16 → Nat)) (used_words : Nat) : Fin 8 → Nat :=
  match buf with
  | some b =>
    if h : 8 < 16 - used_words then
      fun i => st.key i ^^^ (b ⟨i.val + used_words, by
        have hi := i.isLt; omega⟩ % W)
    else
      fun i => st.key i ^^^ cbw cb st (Fin.castLE (by norm_num) i)
  | none => fun i => st.key i ^^^ cbw cb st (Fin.castLE (by norm_num) i)

/-- All-zero state (the static instances live in zeroed memory). -/
def zeroBlock : ChaCha20Block :=
  { constants := fun _ => 0, key := fun _ => 0, counter := 0,
    nonce := fun _ => 0 }

/-- A concrete block function used for witnesses and counterexamples:
output word i is i. -/
def cbIdx : BlockFn := fun _ i => i.val

/-- A concrete carry buffer used for witnesses and counterexamples:
word i holds i + 1. -/
def bufIdx : Fin 16 → Nat := fun i => i.val + 1

/-- Claim C2 counterexample: from the all-zero nonce, the code yields
nonce = [1, 0, 1] (word 2 is incremented because word 1 reads zero even
though no carry reached it), while the claimed little-endian carry
increment yields [1, 0, 0]. -/
theorem nonce_update_carry_claim_cex :
    (lrng_chacha20_update cbIdx zeroBlock bufIdx 16).nonce 2 ≠
      nonceIncClaimed zeroBlock.nonce 2 := by decide

/-- Claim C2 amended: one update increments nonce word 0 mod 2^32;
increments word 1 only if word 0 wrapped to zero; and increments word 2
whenever word 1 reads zero after that conditional increment, even if
word 1 was not itself incremented.  In particular, from
nonce = [0xFFFFFFFF, 0, 0] one update yields nonce = [0, 1, 0]. -/
theorem nonce_update_rule (cb : BlockFn) (st : ChaCha20Block)
    (buf : Fin 16 → Nat) (used_words : Nat) :
    (lrng_chacha20_update cb st buf used_words).nonce 0 =
        (st.nonce 0 + 1) % W ∧
    (lrng_chacha20_update cb st buf used_words).nonce 1 =
        (if (st.nonce 0 + 1) % W = 0 then (st.nonce 1 + 1) % W
         else st.nonce 1) ∧
    (lrng_chacha20_update cb st buf used_words).nonce 2 =
        (if (lrng_chacha20_update cb st buf used_words).nonce 1 = 0
         then (st.nonce 2 + 1) % W else st.nonce 2) ∧
    (st.nonce 0 = W - 1 → st.nonce 1 = 0 → st.nonce 2 = 0 →
      (lrng_chacha20_update cb st buf used_words).nonce 0 = 0 ∧
      (lrng_chacha20_update cb st buf used_words).nonce 1 = 1 ∧
      (lrng_chacha20_update cb st buf used_words).nonce 2 = 0) := by
  refine ⟨rfl, rfl, rfl, fun h0 h1 h2 => ?_⟩
  simp only [lrng_chacha20_update, h0, h1, h2]
  norm_num [W]

/-- Witness for the amended claim C2 at the concrete nonce
[0xFFFFFFFF, 0, 0]. -/
theorem nonce_update_rule_witness :
    (lrng_chacha20_update cbIdx
      { zeroBlock with nonce := ![4294967295, 0, 0] } bufIdx 16).nonce 0 = 0 ∧
    (lrng_chacha20_update cbIdx
      { zeroBlock with nonce := ![4294967295, 0, 0] } bufIdx 16).nonce 1 = 1 ∧
    (lrng_chacha20_update cbIdx
      { zeroBlock with nonce := ![4294967295, 0, 0] } bufIdx 16).nonce 2 = 0 :=
  (nonce_update_rule cbIdx
      { zeroBlock with nonce := ![4294967295, 0, 0] } bufIdx 16).2.2.2
    (by decide) (by decide) (by decide)

/-- Claim C3 counterexample: at used_words = 8 the carry holds exactly
as many undisclosed words as the key (8), so the claim prescribes a
fresh mixing block; the code instead XORs the carry suffix
buf[8..15] onto the key.  With the all-zero key, word 0 becomes
bufIdx 8 = 9 in the code but cbw 0 = 0 under the claim. -/
theorem key_update_branch_claim_cex :
    (lrng_chacha20_update cbIdx zeroBlock bufIdx 8).key 0 ≠
      keyUpdateClaimed cbIdx zeroBlock (some bufIdx) 8 0 := by decide

/-- Claim C3 amended: the undisclosed carry suffix buf[used..used+7] is
XORed onto the key exactly when the disclosed count is at most the
key-size word count (equivalently, at least key-size-many undisclosed
words remain); otherwise (including the no-carry sentinel
used_words = block words) one fresh block is generated and its first
half XORed onto the key. -/
theorem key_update_branch_rule (cb : BlockFn) (st : ChaCha20Block)
    (buf : Fin 16 → Nat) (used_words : Nat) :
    (∀ hu : used_words ≤ 8, ∀ i : Fin 8,
      (lrng_chacha20_update cb st buf used_words).key i =
        st.key i ^^^ (buf ⟨i.val + used_words, by
          have hi := i.isLt; omega⟩ % W)) ∧
    (8 < used_words → ∀ i : Fin 8,
      (lrng_chacha20_update cb st buf used_words).key i =
        st.key i ^^^ cbw cb st (Fin.castLE (by norm_num) i)) := by
  constructor
  · intro h i
    simp only [lrng_chacha20_update]
    rw [dif_neg (by omega)]
  · intro h i
    simp only [lrng_chacha20_update]
    rw [dif_pos h]

/-- Witness for the amended claim C3: at used_words = 4 the carry branch
is taken and key word 0 becomes 0 XOR (bufIdx 4 % W) = 5; at
used_words = 16 the fresh-block branch is taken and key word 0 becomes
0 XOR (cbIdx word 0 % W) = 0. -/
theorem key_update_branch_rule_witness :
    (lrng_chacha20_update cbIdx zeroBlock bufIdx 4).key 0 = 5 ∧
    (lrng_chacha20_update cbIdx zeroBlock bufIdx 16).key 0 = 0 :=
  ⟨((key_update_branch_rule cbIdx zeroBlock bufIdx 4).1 (by decide) 0).trans
      (by decide),
   ((key_update_branch_rule cbIdx zeroBlock bufIdx 16).2 (by decide) 0).trans
      (by decide)⟩

/-- key.b[i] ^= c for a single byte index i (< 32) under the
little-endian key.u/key.b union: XOR c (a u8 value, truncated) into
bits 8*(i mod 4) .. of key word i / 4. -/
def keyByteXor (key : Fin 8 → Nat) (i : Nat) (c : Nat) : Fin 8 → Nat :=
  fun w => if w.val = i / 4 then key w ^^^ ((c % 256) <<< (8 * (i % 4)))
           else key w

/-- XOR the bytes of a chunk onto consecutive key bytes starting at byte
index i (the seed helper's inner for loop). -/
def xorKeyBytesFrom : (Fin 8 → Nat) → Nat → List Nat → (Fin 8 → Nat)
  | key, _, [] => key
  | key, i, c :: rest => xorKeyBytesFrom (keyByteXor key i c) (i + 1) rest

/-- XOR a chunk of at most 32 input bytes onto key bytes 0.. . -/
def xorKeyBytes (key : Fin 8 → Nat) (chunk : List Nat) : Fin 8 → Nat :=
  xorKeyBytesFrom key 0 chunk

/-- One iteration of the seed helper loop: XOR the chunk onto the key
bytes, then lrng_chacha20_update(state, NULL, CHACHA_BLOCK_WORDS).
The NULL buffer is never read because used_words = 16 > 8; it is
modelled as the all-zero buffer. -/
def seedStep (cb : BlockFn) (st : ChaCha20Block) (chunk : List Nat) :
    ChaCha20Block :=
  lrng_chacha20_update cb { st with key := xorKeyBytes st.key chunk }
    (fun _ => 0) 16

/-- lrng_cc20_drng_seed_helper (lrng_chacha20.c lines 90-109): consume
the input in chunks of todo = min(inbuflen, CHACHA_KEY_SIZE) bytes,
XORing each chunk onto the key bytes and running one update per chunk. -/
def lrng_cc20_drng_seed_helper (cb : BlockFn) (st : ChaCha20Block)
    (inbuf : List Nat) : ChaCha20Block :=
  match inbuf with
  | [] => st
  | c :: rest =>
    lrng_cc20_drng_seed_helper cb
      (seedStep cb st ((c :: rest).take (min (c :: rest).length 32)))
      ((c :: rest).drop (min (c :: rest).length 32))
termination_by inbuf.length
decreasing_by
  simp only [List.length_drop, List.length_cons, List.length_take]
  omega

/-- The entropy readings consumed by lrng_cc20_init_state: per key word
and per nonce word, one jiffies reading, one random_get_entropy reading,
and an optional hardware random long (none when neither
arch_get_random_seed_long nor arch_get_random_long succeeds). -/
structure EntropySources where
  jiffiesKey : Fin 8 → Nat
  cyclesKey : Fin 8 → Nat
  hwKey : Fin 8 → Option Nat
  jiffiesNonce : Fin 3 → Nat
  cyclesNonce : Fin 3 → Nat
  hwNonce : Fin 3 → Option Nat

/-- The three sequential XOR assignments of lrng_cc20_init_state for one
state word (each wider reading is truncated to u32 on assignment). -/
def mixWord (w jf ts : Nat) (hw : Option Nat) : Nat :=
  let w1 := w ^^^ (jf % W)
  let w2 := w1 ^^^ (ts % W)
  match hw with
  | some v => w2 ^^^ (v % W)
  | none => w2

/-- The fixed public constants: the bytes of the 16-byte tag
"expand 32-byte k" read as four little-endian words. -/
def chachaConstants : Fin 4 → Nat :=
  ![0x61707865, 0x3320646e, 0x79622d32, 0x6b206574]

/-- lrng_cc20_init_state (lrng_chacha20.c lines 205-228): set the
constants to the fixed tag and XOR the entropy readings into every key
word and every nonce word.  No update of any kind follows the mixing. -/
def lrng_cc20_init_state (es : EntropySources) (st : ChaCha20Block) :
    ChaCha20Block :=
  { st with
    constants := chachaConstants
    key := fun i =>
      mixWord (st.key i) (es.jiffiesKey i) (es.cyclesKey i) (es.hwKey i)
    nonce := fun j =>
      mixWord (st.nonce j) (es.jiffiesNonce j) (es.cyclesNonce j)
        (es.hwNonce j) }

/-- Formalisation of the wording of claim C4: initialization mixes the
entropy readings and then applies exactly one BacktrackUpdate with no
additional input before any output can be produced. -/
def initClaimed (cb : BlockFn) (es : EntropySources) (st : ChaCha20Block) :
    ChaCha20Block :=
  lrng_chacha20_update cb (lrng_cc20_init_state es st) (fun _ => 0) 16

/-- CHACHA_KEY_SIZE in bytes. -/
def CHACHA_KEY_SIZE : Nat := 32

/-- The error conditions of the allocation path: -EINVAL when the
requested security strength exceeds the key size, -ENOMEM when kmalloc
fails. -/
inductive DrngAllocError where
  | invalidSecurityStrength
  | outOfMemory
deriving DecidableEq

/-- lrng_cc20_drng_alloc (lrng_chacha20.c lines 233-256): reject a
requested strength above CHACHA_KEY_SIZE with -EINVAL (a strength below
the key size only logs a warning), then allocate storage (raw models the
uninitialized kmalloc contents, memOK its success) and run
lrng_cc20_init_state on it. -/
def lrng_cc20_drng_alloc (memOK : Bool) (raw : ChaCha20Block)
    (es : EntropySources) (sec_strength : Nat) :
    Except DrngAllocError ChaCha20Block :=
  if CHACHA_KEY_SIZE < sec_strength then
    Except.error DrngAllocError.invalidSecurityStrength
  else if memOK then Except.ok (lrng_cc20_init_state es raw)
  else Except.error DrngAllocError.outOfMemory

/-- memzero_explicit over a chacha20_state: every word reads zero. -/
def memzeroBlock (_ : ChaCha20Block) : ChaCha20Block := zeroBlock

/-- kzfree over a chacha20_state: the memory is zeroized before being
returned to the allocator. -/
def kzfreeBlock (_ : ChaCha20Block) : ChaCha20Block := zeroBlock

/-- lrng_cc20_drng_dealloc (lrng_chacha20.c lines 258-270): the static
instances are zeroized in place, heap instances are zeroized and
freed.  The value is the state content observable afterwards. -/
def lrng_cc20_drng_dealloc (isStatic : Bool) (st : ChaCha20Block) :
    ChaCha20Block :=
  if isStatic then memzeroBlock st else kzfreeBlock st

/-- All-zero entropy readings with no hardware source, used in concrete
instances. -/
def esZero : EntropySources :=
  { jiffiesKey := fun _ => 0, cyclesKey := fun _ => 0,
    hwKey := fun _ => none, jiffiesNonce := fun _ => 0,
    cyclesNonce := fun _ => 0, hwNonce := fun _ => none }

/-- The word count handed to lrng_chacha20_update by the generate
helper: CHACHA_BLOCK_WORDS when no partial block was produced, else the
number of words fully or partially disclosed from the partial block,
ceil(remaining bytes / 4). -/
def genUsed (outbuflen : Nat) : Nat :=
  if outbuflen % 64 = 0 then 16 else (outbuflen % 64 + 3) / 4

/-- The buffer handed to lrng_chacha20_update by the generate helper:
the stack buffer aligned_buf, which holds the last generated block when
a partial block was produced and its original uninitialized contents
(junk) otherwise. -/
def genBuf (cb : BlockFn) (st : ChaCha20Block) (junk : Fin 16 → Nat)
    (outbuflen : Nat) : Fin 16 → Nat :=
  if outbuflen % 64 = 0 then junk else cbw cb st

/-- The whole-block while loop of lrng_cc20_drng_generate_helper: one
full 64-byte block per iteration while at least 64 bytes remain. -/
def genLoop (w : Fin 16 → Nat) (len : Nat) : List Nat :=
  if 64 ≤ len then blockBytes w ++ genLoop w (len - 64) else []
termination_by len
decreasing_by omega

/-- lrng_cc20_drng_generate_helper (lrng_chacha20.c lines 124-152):
emit whole blocks while 64 or more bytes remain, then for a final
partial request generate one more block into aligned_buf and copy its
prefix; finally run lrng_chacha20_update with aligned_buf and the
disclosed word count. -/
def lrng_cc20_drng_generate_helper (cb : BlockFn) (junk : Fin 16 → Nat)
    (st : ChaCha20Block) (outbuflen : Nat) : List Nat × ChaCha20Block :=
  (genLoop (cbw cb st) outbuflen ++
     (blockBytes (cbw cb st)).take (outbuflen % 64),
   lrng_chacha20_update cb st (genBuf cb st junk outbuflen)
     (genUsed outbuflen))

/-- The intended half fold: word i of the lower half XORed with word
i + 8 of the upper half (the u32-level fold the second loop of the full
helper performs on aligned_buf). -/
def foldWords (w : Fin 16 → Nat) : Fin 16 → Nat :=
  fun i => if h : i.val < 8 then w i ^^^ w ⟨i.val + 8, by omega⟩ else w i

/-- The 32 bytes one whole-block iteration of
lrng_cc20_drng_generate_helper_full contributes to the output.  The loop
writes the 64-byte block through a u8 pointer, executes
outbuf[i] ^= outbuf[i + 8] for i = 0..7 (byte indices, because outbuf
is u8*), and advances by 32 bytes; the bytes it wrote beyond its 32-byte
window are overwritten by the next iteration or by the final-loop
memcpy.  So bytes 0..7 are block byte i XOR block byte i + 8 and bytes
8..31 are raw block bytes. -/
def fullBuggyChunk (w : Fin 16 → Nat) : List Nat :=
  List.ofFn (fun j : Fin 32 =>
    if j.val < 8 then
      wordByte (w ⟨j.val / 4, by omega⟩) (j.val % 4) ^^^
        wordByte (w ⟨(j.val + 8) / 4, by omega⟩) ((j.val + 8) % 4)
    else
      wordByte (w ⟨j.val / 4, by omega⟩) (j.val % 4))

/-- Output of lrng_cc20_drng_generate_helper_full (lines 163-203): the
first while loop runs while 64 or more bytes remain and contributes 32
bytes per iteration (with the byte-level fold above); the second loop
serves the rest in chunks of todo = min(32, remaining) bytes taken from
a properly word-folded block. -/
def genFullOut (w : Fin 16 → Nat) (len : Nat) : List Nat :=
  if 64 ≤ len then fullBuggyChunk w ++ genFullOut w (len - 32)
  else if len = 0 then []
  else (blockBytes (foldWords w)).take (min 32 len) ++
    genFullOut w (len - min 32 len)
termination_by len
decreasing_by all_goals omega

/-- lrng_cc20_drng_generate_helper_full: produce the folded output and
finish with lrng_chacha20_update(state, NULL, CHACHA_BLOCK_WORDS) (the
NULL buffer is never read because used_words = 16 > 8). -/
def lrng_cc20_drng_generate_helper_full (cb : BlockFn)
    (st : ChaCha20Block) (outbuflen : Nat) : List Nat × ChaCha20Block :=
  (genFullOut (cbw cb st) outbuflen,
   lrng_chacha20_update cb st (fun _ => 0) 16)

/-- Formalisation of the wording of claim C1 for the disclosed output:
every 512-bit block is folded by XORing the upper half onto the lower
half word-by-word, and the folded 256-bit half (or a prefix of it for a
final partial request) is emitted. -/
def foldedOutputClaimed (w : Fin 16 → Nat) (len : Nat) : List Nat :=
  if len = 0 then []
  else (blockBytes (foldWords w)).take (min 32 len) ++
    foldedOutputClaimed w (len - min 32 len)
termination_by len
decreasing_by omega

/-- One full-block iteration of genLoop at exactly 64 bytes. -/
theorem genLoop_eq_64 (w : Fin 16 → Nat) : genLoop w 64 = blockBytes w := by
  rw [genLoop, genLoop]
  norm_num

/-- Claim C1 (code evaluation at the failing input): for a 64-byte
request the first emitted byte of the second output word (byte index 8)
is the raw block byte 8, not the fold of words 2 and 10 the claim
requires; with the block function emitting word i = i, the code yields
byte 2 where the claimed word-wise fold yields byte 8.  For a 32-byte
request (one key size, served by the second loop) the code does produce
exactly the claimed word-wise fold, for every block function and every
state. -/
theorem generate_full_fold_evaluation :
    (lrng_cc20_drng_generate_helper_full cbIdx zeroBlock 64).1.getD 8 0 = 2 ∧
    (foldedOutputClaimed (cbw cbIdx zeroBlock) 64).getD 8 0 = 8 ∧
    (∀ (cb : BlockFn) (st : ChaCha20Block),
      (lrng_cc20_drng_generate_helper_full cb st 32).1 =
        foldedOutputClaimed (cbw cb st) 32) := by
  refine ⟨?_, ?_, fun cb st => ?_⟩
  · show (genFullOut (cbw cbIdx zeroBlock) 64).getD 8 0 = 2
    have h64 : genFullOut (cbw cbIdx zeroBlock) 64 =
        fullBuggyChunk (cbw cbIdx zeroBlock) ++
          genFullOut (cbw cbIdx zeroBlock) 32 := by
      rw [genFullOut]; norm_num
    rw [h64, List.getD_append _ _ _ _ (by simp [fullBuggyChunk])]
    decide
  · have h64 : foldedOutputClaimed (cbw cbIdx zeroBlock) 64 =
        (blockBytes (foldWords (cbw cbIdx zeroBlock))).take 32 ++
          foldedOutputClaimed (cbw cbIdx zeroBlock) 32 := by
      rw [foldedOutputClaimed]; norm_num
    rw [h64, List.getD_append _ _ _ _ (by norm_num [blockBytes])]
    decide
  · show genFullOut (cbw cb st) 32 = foldedOutputClaimed (cbw cb st) 32
    have h0 : genFullOut (cbw cb st) 0 = [] := by rw [genFullOut]; norm_num
    have h0c : foldedOutputClaimed (cbw cb st) 0 = [] := by
      rw [foldedOutputClaimed]; norm_num
    rw [genFullOut, foldedOutputClaimed]
    norm_num [h0, h0c]

/-- Claim C5 counterexample: from the all-zero nonce, a 64-byte generate
call leaves the nonce at [1, 0, 1] (word 2 was incremented because word
1 reads zero), so the 96-bit nonce value advances by 1 + 2^64, not by
exactly 1. -/
theorem generate_block_nonce_advance_cex :
    ¬ nonceVal ((lrng_cc20_drng_generate_helper cbIdx bufIdx
        zeroBlock 64).2.nonce) = nonceVal zeroBlock.nonce + 1 := by decide

/-- Claim C5 amended: generate(state, block_size) writes exactly the
bytes the block function produces from the pre-call state, and the
nonce is advanced by the update rule (word 0 incremented mod 2^32, word
1 incremented on wrap of word 0, word 2 incremented whenever word 1
then reads zero); in particular the 96-bit nonce value advances by
exactly 1 whenever nonce word 1 is nonzero after the call. -/
theorem generate_block_output_and_nonce (cb : BlockFn)
    (junk : Fin 16 → Nat) (st : ChaCha20Block) :
    (lrng_cc20_drng_generate_helper cb junk st 64).1 =
      blockBytes (cbw cb st) ∧
    (∀ hw : ∀ j : Fin 3, st.nonce j < W,
     ∀ h1 : (lrng_cc20_drng_generate_helper cb junk st 64).2.nonce 1 ≠ 0,
      nonceVal ((lrng_cc20_drng_generate_helper cb junk st 64).2.nonce) =
        nonceVal st.nonce + 1) := by
  constructor
  · show genLoop (cbw cb st) 64 ++ (blockBytes (cbw cb st)).take (64 % 64) =
      blockBytes (cbw cb st)
    norm_num [genLoop_eq_64]
  · intro hw h1
    have hW : W = 4294967296 := rfl
    have hx0 := hw 0
    have hx1 := hw 1
    have e0 : (lrng_cc20_drng_generate_helper cb junk st 64).2.nonce 0 =
        (st.nonce 0 + 1) % W := rfl
    have e1 : (lrng_cc20_drng_generate_helper cb junk st 64).2.nonce 1 =
        (if (st.nonce 0 + 1) % W = 0 then (st.nonce 1 + 1) % W
         else st.nonce 1) := rfl
    have e2 : (lrng_cc20_drng_generate_helper cb junk st 64).2.nonce 2 =
        (if (lrng_cc20_drng_generate_helper cb junk st 64).2.nonce 1 = 0
         then (st.nonce 2 + 1) % W else st.nonce 2) := rfl
    rw [e1] at h1
    simp only [nonceVal, e0, e1, e2, if_neg h1]
    by_cases h0 : (st.nonce 0 + 1) % W = 0
    · rw [if_pos h0] at h1 ⊢
      rw [hW] at h0 h1 hx0 hx1 ⊢
      omega
    · rw [if_neg h0]
      rw [hW] at h0 hx0 ⊢
      omega

/-- Witness for the amended claim C5 at a state with nonce [5, 1, 0]. -/
theorem generate_block_output_and_nonce_witness :
    (lrng_cc20_drng_generate_helper cbIdx bufIdx
        { zeroBlock with nonce := ![5, 1, 0] } 64).1 =
      blockBytes (cbw cbIdx { zeroBlock with nonce := ![5, 1, 0] }) ∧
    nonceVal ((lrng_cc20_drng_generate_helper cbIdx bufIdx
        { zeroBlock with nonce := ![5, 1, 0] } 64).2.nonce) =
      nonceVal (fun j => (![5, 1, 0] : Fin 3 → Nat) j) + 1 :=
  ⟨(generate_block_output_and_nonce cbIdx bufIdx
      { zeroBlock with nonce := ![5, 1, 0] }).1,
   (generate_block_output_and_nonce cbIdx bufIdx
      { zeroBlock with nonce := ![5, 1, 0] }).2 (by decide) (by decide)⟩

/-- Claim C10: when the requested length is a multiple of the block size
(including zero), the word count handed to the update is the full block
word count 16, which exceeds the key-size word count 8, the update takes
the fresh-mixing-block branch, and the output and final state do not
depend on the uninitialized contents of aligned_buf. -/
theorem generate_multiple_junk_independent (cb : BlockFn)
    (junk1 junk2 : Fin 16 → Nat) (st : ChaCha20Block) (len : Nat)
    (h : 64 ∣ len) :
    genUsed len = 16 ∧ 8 < genUsed len ∧
    lrng_cc20_drng_generate_helper cb junk1 st len =
      lrng_cc20_drng_generate_helper cb junk2 st len ∧
    (∀ i : Fin 8,
      (lrng_cc20_drng_generate_helper cb junk1 st len).2.key i =
        st.key i ^^^ cbw cb st (Fin.castLE (by norm_num) i)) := by
  have h0 : len % 64 = 0 := by omega
  have hu : genUsed len = 16 := by rw [genUsed, if_pos h0]
  refine ⟨hu, by rw [hu]; norm_num, ?_, ?_⟩
  · simp only [lrng_cc20_drng_generate_helper, hu, lrng_chacha20_update,
      dif_pos (by norm_num : (8 : Nat) < 16)]
  · intro i
    simp only [lrng_cc20_drng_generate_helper, hu, lrng_chacha20_update,
      dif_pos (by norm_num : (8 : Nat) < 16)]

/-- Witness for claim C10 at length 0 and two different junk buffers. -/
theorem generate_multiple_junk_independent_witness :
    lrng_cc20_drng_generate_helper cbIdx bufIdx zeroBlock 0 =
      lrng_cc20_drng_generate_helper cbIdx (fun _ => 0) zeroBlock 0 :=
  (generate_multiple_junk_independent cbIdx bufIdx (fun _ => 0) zeroBlock 0
    (by decide)).2.2.1

/-- Claim C4 counterexample: with all-zero entropy readings on the
all-zero state, lrng_cc20_init_state leaves the nonce at 0, while the
claimed mixing-then-one-BacktrackUpdate initialization would have
incremented nonce word 0 to 1: no update is applied by
initialization. -/
theorem init_no_update_cex :
    (lrng_cc20_init_state esZero zeroBlock).nonce 0 ≠
      (initClaimed cbIdx esZero zeroBlock).nonce 0 := by decide

/-- The three sequential XOR assignments collapse to one XOR of the
combined readings. -/
theorem mixWord_eq (w jf ts : Nat) (hw : Option Nat) :
    mixWord w jf ts hw =
      w ^^^ ((jf % W) ^^^ (ts % W) ^^^ hw.elim 0 (fun v => v % W)) := by
  cases hw <;> simp [mixWord, Nat.xor_assoc]

/-- Claim C4 amended: initialization sets the constants to the fixed
16-byte public tag and XOR-mixes the entropy readings into every key
word and every nonce word, leaving the counter untouched; no
BacktrackUpdate is applied before the state can produce output. -/
theorem init_state_characterization (es : EntropySources)
    (st : ChaCha20Block) :
    (lrng_cc20_init_state es st).constants = chachaConstants ∧
    (∀ i, (lrng_cc20_init_state es st).key i =
      st.key i ^^^ ((es.jiffiesKey i % W) ^^^ (es.cyclesKey i % W) ^^^
        (es.hwKey i).elim 0 (fun v => v % W))) ∧
    (∀ j, (lrng_cc20_init_state es st).nonce j =
      st.nonce j ^^^ ((es.jiffiesNonce j % W) ^^^ (es.cyclesNonce j % W) ^^^
        (es.hwNonce j).elim 0 (fun v => v % W))) ∧
    (lrng_cc20_init_state es st).counter = st.counter :=
  ⟨rfl, fun i => mixWord_eq _ _ _ _, fun j => mixWord_eq _ _ _ _, rfl⟩

/-- Claim C7: allocation fails with the invalid-security-strength error
exactly when the requested strength exceeds the 32-byte key size, and
succeeds (returning the initialized state) for every strength at most
the key size when storage is available. -/
theorem alloc_strength_bounds (memOK : Bool) (raw : ChaCha20Block)
    (es : EntropySources) (s : Nat) :
    (lrng_cc20_drng_alloc memOK raw es s =
        Except.error DrngAllocError.invalidSecurityStrength ↔
      CHACHA_KEY_SIZE < s) ∧
    (s ≤ CHACHA_KEY_SIZE → memOK = true →
      lrng_cc20_drng_alloc memOK raw es s =
        Except.ok (lrng_cc20_init_state es raw)) := by
  constructor
  · constructor
    · intro he
      by_contra hs
      rw [lrng_cc20_drng_alloc, if_neg hs] at he
      cases memOK <;> simp_all
    · intro hs
      rw [lrng_cc20_drng_alloc, if_pos hs]
  · intro hs hm
    rw [lrng_cc20_drng_alloc, if_neg (Nat.not_lt.mpr hs), hm, if_pos rfl]

/-- Witness for claim C7: requesting 16 bytes of strength (below the
32-byte key size) succeeds. -/
theorem alloc_strength_bounds_witness :
    lrng_cc20_drng_alloc true zeroBlock esZero 16 =
      Except.ok (lrng_cc20_init_state esZero zeroBlock) :=
  (alloc_strength_bounds true zeroBlock esZero 16).2 (by decide) rfl

/-- Claim C8: after deallocation of either a static or a heap instance,
every word of the state - constants, key, counter and nonce - reads
zero. -/
theorem dealloc_zeroizes (isStatic : Bool) (st : ChaCha20Block) :
    (∀ i, (lrng_cc20_drng_dealloc isStatic st).constants i = 0) ∧
    (∀ i, (lrng_cc20_drng_dealloc isStatic st).key i = 0) ∧
    (lrng_cc20_drng_dealloc isStatic st).counter = 0 ∧
    (∀ j, (lrng_cc20_drng_dealloc isStatic st).nonce j = 0) := by
  cases isStatic <;>
    exact ⟨fun _ => rfl, fun _ => rfl, rfl, fun _ => rfl⟩

/-- The seed helper never modifies the constants or the counter
(auxiliary induction on a length bound). -/
theorem seed_frame_aux (cb : BlockFn) :
    ∀ (n : Nat) (inbuf : List Nat) (st : ChaCha20Block),
      inbuf.length ≤ n →
      (lrng_cc20_drng_seed_helper cb st inbuf).constants = st.constants ∧
      (lrng_cc20_drng_seed_helper cb st inbuf).counter = st.counter := by
  intro n
  induction n with
  | zero =>
    intro inbuf st h
    have hA : inbuf = [] := by
      cases inbuf with
      | nil => rfl
      | cons c rest => simp at h
    subst hA
    rw [lrng_cc20_drng_seed_helper]
    exact ⟨rfl, rfl⟩
  | succ n ih =>
    intro inbuf st h
    cases inbuf with
    | nil =>
      rw [lrng_cc20_drng_seed_helper]
      exact ⟨rfl, rfl⟩
    | cons c rest =>
      rw [lrng_cc20_drng_seed_helper]
      have hlen : ((c :: rest).drop (min (c :: rest).length 32)).length ≤ n := by
        simp only [List.length_drop, List.length_cons]
        simp only [List.length_cons] at h
        omega
      exact (ih _ _ hlen).imp (fun hc => hc.trans rfl) (fun hc => hc.trans rfl)

/-- Claim C9: seed, generate, generate_full and the update all leave the
four constants words unchanged, and the update itself never writes the
counter word. -/
theorem frame_constants_counter (cb : BlockFn) (st : ChaCha20Block)
    (buf junk : Fin 16 → Nat) (used_words : Nat) (inbuf : List Nat)
    (len lenf : Nat) :
    (lrng_chacha20_update cb st buf used_words).constants = st.constants ∧
    (lrng_chacha20_update cb st buf used_words).counter = st.counter ∧
    (lrng_cc20_drng_seed_helper cb st inbuf).constants = st.constants ∧
    (lrng_cc20_drng_generate_helper cb junk st len).2.constants =
      st.constants ∧
    (lrng_cc20_drng_generate_helper_full cb st lenf).2.constants =
      st.constants :=
  ⟨rfl, rfl, (seed_frame_aux cb inbuf.length inbuf st le_rfl).1, rfl, rfl⟩

/-- Unfolding of the seed helper for an input of at least one full
32-byte chunk. -/
theorem seed_step_ge32 (cb : BlockFn) (st : ChaCha20Block) (l : List Nat)
    (h : 32 ≤ l.length) :
    lrng_cc20_drng_seed_helper cb st l =
      lrng_cc20_drng_seed_helper cb (seedStep cb st (l.take 32))
        (l.drop 32) := by
  cases l with
  | nil => simp at h
  | cons c rest =>
    have hm : min (c :: rest).length 32 = 32 := min_eq_right h
    rw [lrng_cc20_drng_seed_helper, hm]

/-- Chunk-boundary associativity of seeding (auxiliary induction on a
length bound): splitting the input at a multiple of the 32-byte key
size does not change the final state. -/
theorem seed_assoc_aux (cb : BlockFn) (B : List Nat) :
    ∀ (n : Nat) (A : List Nat) (st : ChaCha20Block),
      A.length ≤ n → A.length % 32 = 0 →
      lrng_cc20_drng_seed_helper cb st (A ++ B) =
        lrng_cc20_drng_seed_helper cb
          (lrng_cc20_drng_seed_helper cb st A) B := by
  intro n
  induction n with
  | zero =>
    intro A st hle hmod
    have hA : A = [] := by
      cases A with
      | nil => rfl
      | cons c rest => simp at hle
    subst hA
    rw [List.nil_append, lrng_cc20_drng_seed_helper]
  | succ n ih =>
    intro A st hle hmod
    cases hA : A with
    | nil =>
      rw [List.nil_append, lrng_cc20_drng_seed_helper]
    | cons c rest =>
      rw [hA] at hle hmod
      have hpos : 1 ≤ (c :: rest).length := by simp
      have h32 : 32 ≤ (c :: rest).length := by omega
      have h32b : 32 ≤ ((c :: rest) ++ B).length := by
        rw [List.length_append]; omega
      rw [seed_step_ge32 cb st ((c :: rest) ++ B) h32b,
        seed_step_ge32 cb st (c :: rest) h32,
        List.take_append_of_le_length h32, List.drop_append_of_le_length h32]
      exact ih ((c :: rest).drop 32) (seedStep cb st ((c :: rest).take 32))
        (by rw [List.length_drop]; omega)
        (by rw [List.length_drop]; omega)

/-- Claim C6: seeding with A ++ B, where the length of A is a multiple
of the 32-byte key size, yields the same final state as seeding with A
and then seeding with B. -/
theorem seed_chunk_assoc (cb : BlockFn) (A B : List Nat)
    (st : ChaCha20Block) (h : A.length % 32 = 0) :
    lrng_cc20_drng_seed_helper cb st (A ++ B) =
      lrng_cc20_drng_seed_helper cb
        (lrng_cc20_drng_seed_helper cb st A) B :=
  seed_assoc_aux cb B A.length A st le_rfl h

/-- Witness for claim C6 at a 32-byte first part and a 3-byte second
part. -/
theorem seed_chunk_assoc_witness :
    lrng_cc20_drng_seed_helper cbIdx zeroBlock
        (List.replicate 32 7 ++ [1, 2, 3]) =
      lrng_cc20_drng_seed_helper cbIdx
        (lrng_cc20_drng_seed_helper cbIdx zeroBlock (List.replicate 32 7))
        [1, 2, 3] :=
  seed_chunk_assoc cbIdx (List.replicate 32 7) [1, 2, 3] zeroBlock
    (by decide)
